import Mathlib

/-!
Verification of the pdf-ocr-pipeline extraction-and-orchestration subsystem.

The development shallowly embeds the Python modules
`pdf_ocr_pipeline/ocr.py` (external process runner `runCmd`, per-document
pipeline `ocr_pdf`, module-level required-binary check) and
`pdf_ocr_pipeline/cli.py` (batch entry point `main`).

External effects are modelled by explicit "world" records: the outcome of
each external process invocation, the set of files produced by the
rasterizer in the temporary directory, and the availability of executables
on the search path are all data supplied by the world.  The embedded
functions are pure and executable, so concrete runs can be evaluated.
-/

/-- Outcome of one `subprocess.run` invocation, as observed by `runCmd`:
either the executable was not found (Python `FileNotFoundError`, carrying
`exc.filename`), or the process exited with a return code and captured
stdout/stderr streams.  The stream type `β` is a parameter because
`runCmd` never inspects stream contents (OCR code views them as decoded
text, the runner contract views them as raw bytes). -/
inductive ProcResult (β : Type) where
  | notFound (filename : String)
  | exited (returncode : Int) (stdout : β) (stderr : β)
deriving DecidableEq

/-- Failure modes of `runCmd` in `ocr.py`: `FileNotFoundError` is
re-raised as `MissingBinaryError (exc.filename)`, and an exit code outside
`ok_exit_codes` raises `subprocess.CalledProcessError` carrying the return
code and the captured streams. -/
inductive RunErr (β : Type) where
  | missingBinary (name : String)
  | calledProcessError (returncode : Int) (stdout : β) (stderr : β)
deriving DecidableEq

/-- Default for the `ok_exit_codes` keyword of `runCmd`: `(0,)`. -/
def defaultOkExitCodes : List Int := [0]

/-- Embedding of `runCmd` (ocr.py).  Runs the command (whose outcome the
world supplies as `res`); on `FileNotFoundError` fails with
`MissingBinaryError`; on a return code not in `okExitCodes` fails with
`CalledProcessError` carrying the code and both captured streams;
otherwise returns the captured stdout and stderr. -/
def runCmd {β : Type} (okExitCodes : List Int) (res : ProcResult β) :
    Except (RunErr β) (β × β) :=
  match res with
  | .notFound name => .error (.missingBinary name)
  | .exited code out err =>
      if code ∈ okExitCodes then .ok (out, err)
      else .error (.calledProcessError code out err)

/-- Exceptions that can escape `ocr_pdf`: `OcrError msg` (raised by
`ocr_pdf` itself on tool failure or missing output) and `MissingBinaryError`
(raised by `runCmd` and not caught inside `ocr_pdf`).  Both derive from
`PipelineError` in `errors.py`. -/
inductive PErr where
  | missingBinary (name : String)
  | ocrError (msg : String)
deriving DecidableEq

/-- External behaviour seen by one `ocr_pdf` run.  Text streams are the
utf-8-decoded views of the tool outputs. `globResult` is the (unordered)
result of `Path(tmpdir).glob("page-*.ppm")`; `probe` is the value
`_detect_streaming_support()` would return. -/
structure DocWorld where
  probe : Bool
  rasterStream : ProcResult String
  rasterFile : ProcResult String
  globResult : List String
  recognizeStream : String → ProcResult String
  recognizeFile : String → ProcResult String

/-- Lexicographic comparison of character lists, the order `sorted` uses on
the page-image filenames. -/
def charListLe : List Char → List Char → Bool
  | [], _ => true
  | _ :: _, [] => false
  | a :: as, b :: bs => if a = b then charListLe as bs else decide (a < b)

/-- Lexicographic string comparison (the order of Python `sorted` on the
page file names). -/
def strLe (a b : String) : Bool :=
  charListLe a.data b.data

/-- Insert a string into a `strLe`-sorted list of strings, keeping it
sorted. -/
def insertSorted (s : String) : List String → List String
  | [] => [s]
  | t :: rest => if strLe s t then s :: t :: rest else t :: insertSorted s rest

/-- Embedding of `sorted(Path(tmpdir).glob("page-*.ppm"))`: the discovered
page-image files in ascending filename order. -/
def sortImages (l : List String) : List String :=
  l.foldr insertSorted []

/-- Embedding of the f-string `f"<page number {idx}>\n{part}\n</page number {idx}>"`
used by `ocr_pdf` to wrap one page's recognized text. -/
def pageTag (idx : Nat) (text : String) : String :=
  "<page number " ++ toString idx ++ ">\n" ++ text ++ "\n</page number " ++
    toString idx ++ ">"

/-- Embedding of `enumerate(ocr_text_parts, start=1)` followed by the
page-tag wrapping loop: tag each part with its 1-based index. -/
def numberPages (start : Nat) : List String → List String
  | [] => []
  | part :: rest => pageTag start part :: numberPages (start + 1) rest

/-- Embedding of the final `"\n".join(pages)` over the tagged pages. -/
def formatPages (parts : List String) : String :=
  String.intercalate "\n" (numberPages 1 parts)

/-- Embedding of the per-page OCR loop of `ocr_pdf`: run tesseract on every
image in order; a `CalledProcessError` on any page raises
`OcrError "tesseract failed on image"` (aborting the whole document);
a `MissingBinaryError` propagates; on success collect the decoded stdout
of every page. -/
def ocrPages (w : DocWorld) : List String → Except PErr (List String)
  | [] => .ok []
  | img :: rest =>
      match runCmd defaultOkExitCodes (w.recognizeFile img) with
      | .error (.missingBinary n) => .error (.missingBinary n)
      | .error (.calledProcessError _ _ _) =>
          .error (.ocrError "tesseract failed on image")
      | .ok (out, _) =>
          match ocrPages w rest with
          | .error e => .error e
          | .ok parts => .ok (out :: parts)

/-- Embedding of the file-based (temporary-directory) strategy of
`ocr_pdf`: rasterize into the temp dir, enumerate `page-*.ppm` files in
sorted order; if no files but nonempty rasterizer stdout, recognize those
bytes as a single streamed page wrapped as page 1; if no files and no
stdout, fail with `OcrError "No images produced by pdftoppm"`; otherwise
recognize every page and join the tagged page texts with newlines. -/
def fileBasedPath (w : DocWorld) : Except PErr String :=
  match runCmd defaultOkExitCodes w.rasterFile with
  | .error (.missingBinary n) => .error (.missingBinary n)
  | .error (.calledProcessError _ _ _) => .error (.ocrError "pdftoppm failed")
  | .ok (rasterOut, _) =>
      let images := sortImages w.globResult
      if images.isEmpty && !(rasterOut == "") then
        match runCmd defaultOkExitCodes (w.recognizeStream rasterOut) with
        | .error (.missingBinary n) => .error (.missingBinary n)
        | .error (.calledProcessError _ _ _) =>
            .error (.ocrError "tesseract failed during streaming fallback")
        | .ok (out, _) => .ok (pageTag 1 out)
      else if images.isEmpty then
        .error (.ocrError "No images produced by pdftoppm")
      else
        match ocrPages w images with
        | .error e => .error e
        | .ok parts => .ok (formatPages parts)

/-- Embedding of the streaming fast path of `ocr_pdf`: rasterize to stdout;
a rasterizer failure raises `OcrError "pdftoppm failed"`; empty stdout
falls through to the file-based path (returning `none` here, with the
capability flag downgraded by the caller); otherwise pipe the bytes to the
recognizer and return its decoded stdout (untagged). -/
def streamingPath (w : DocWorld) : Except PErr (Option String) :=
  match runCmd defaultOkExitCodes w.rasterStream with
  | .error (.missingBinary n) => .error (.missingBinary n)
  | .error (.calledProcessError _ _ _) => .error (.ocrError "pdftoppm failed")
  | .ok (rasterOut, _) =>
      if rasterOut == "" then .ok none
      else
        match runCmd defaultOkExitCodes (w.recognizeStream rasterOut) with
        | .error (.missingBinary n) => .error (.missingBinary n)
        | .error (.calledProcessError _ _ _) =>
            .error (.ocrError "tesseract failed during streaming path")
        | .ok (out, _) => .ok (some out)

instance {ε α : Type} [DecidableEq ε] [DecidableEq α] : DecidableEq (Except ε α) := fun x y =>
  match x, y with
  | .ok a, .ok b =>
      if h : a = b then .isTrue (congrArg Except.ok h)
      else .isFalse (fun hc => h (Except.ok.inj hc))
  | .ok _, .error _ => .isFalse (fun hc => Except.noConfusion hc)
  | .error _, .ok _ => .isFalse (fun hc => Except.noConfusion hc)
  | .error e, .error f =>
      if h : e = f then .isTrue (congrArg Except.error h)
      else .isFalse (fun hc => h (Except.error.inj hc))

/-- Trace of one `ocr_pdf` run: the returned value or escaped exception,
whether `_detect_streaming_support` was invoked, whether the streaming
fast-path block was entered, whether the file-based strategy ran, and the
value of the module global `_STREAMING_SUPPORTED` after the call. -/
structure OcrRun where
  result : Except PErr String
  probeCalled : Bool
  streamingTried : Bool
  usedFileBased : Bool
  flagAfter : Option Bool
deriving DecidableEq

/-- Embedding of `ocr_pdf` (ocr.py) with its capability-flag protocol made
explicit.  `flag0` is the value of the global `_STREAMING_SUPPORTED` on
entry (`none` models Python `None`): when `none`, the probe runs and its
result becomes the flag; when the flag is true the streaming fast path is
tried (falling back to the file-based path, and pinning the flag to
`False`, if the rasterizer wrote nothing to stdout); when false the
file-based strategy runs directly. -/
def ocr_pdf_full (flag0 : Option Bool) (w : DocWorld) : OcrRun :=
  let probed := flag0.isNone
  let flag1 : Bool :=
    match flag0 with
    | none => w.probe
    | some b => b
  if flag1 then
    match streamingPath w with
    | .error e => ⟨.error e, probed, true, false, some true⟩
    | .ok (some t) => ⟨.ok t, probed, true, false, some true⟩
    | .ok none => ⟨fileBasedPath w, probed, true, true, some false⟩
  else
    ⟨fileBasedPath w, probed, false, true, some false⟩

/-- Shipped value of the module global `_STREAMING_SUPPORTED` in ocr.py:
the constant `False` (never `None`). -/
def _STREAMING_SUPPORTED : Option Bool := some false

/-- The per-document pipeline as invoked by the CLI: `ocr_pdf` run with the
shipped capability flag. -/
def ocr_pdf (w : DocWorld) : Except PErr String :=
  (ocr_pdf_full _STREAMING_SUPPORTED w).result

/-- A JSON-object value emitted by the CLI for one document, as an ordered
key/value association (Python dicts preserve insertion order). -/
abbrev Record := List (String × String)

/-- Embedding of the success record built in `cli.py`:
`{"file": pdf_path.name, "ocr_text": text}`. -/
def mkSuccess (file text : String) : Record :=
  [("file", file), ("ocr_text", text)]

/-- Embedding of the error record built in `cli.py`:
`{"file": pdf_path.name, "error": str(exc)}`. -/
def mkErrorRec (file err : String) : Record :=
  [("file", file), ("error", err)]

/-- The ordered list of keys of a record. -/
def recKeys (r : Record) : List String :=
  r.map Prod.fst

/-- Lookup in an association list with string keys (Python dict read). -/
def alistLookup {α : Type} (d : List (String × α)) (k : String) : Option α :=
  match d with
  | [] => none
  | (k1, v) :: rest => if k1 = k then some v else alistLookup rest k

/-- Insert/overwrite in an association list with string keys (Python dict
write `d[k] = v`). -/
def alistInsert {α : Type} (d : List (String × α)) (k : String) (v : α) :
    List (String × α) :=
  match d with
  | [] => [(k, v)]
  | (k1, v1) :: rest =>
      if k1 = k then (k, v) :: rest else (k1, v1) :: alistInsert rest k v

/-- Embedding of `pathlib.Path(...).name` for the path strings the CLI is
given: the final path component. -/
def pathNameAux : List Char → List Char → List Char
  | [], acc => acc.reverse
  | c :: rest, acc =>
      if c = '/' then pathNameAux rest [] else pathNameAux rest (c :: acc)

/-- File name (`Path.name`) of a path string. -/
def pathName (p : String) : String :=
  String.mk (pathNameAux p.data [])

/-- Message of the Python exception as rendered by `str(exc)` in `cli.py`:
`MissingBinaryError(name)` prints its single argument, `OcrError(msg)`
prints its message. -/
def strPErr : PErr → String
  | .missingBinary n => n
  | .ocrError m => m

/-- World seen by one batch run: which executables `shutil.which` finds,
which input paths `Path.is_file` accepts, and the external behaviour each
document's pipeline run observes. -/
structure BatchWorld where
  which : String → Bool
  isFile : String → Bool
  doc : String → DocWorld

/-- The module-level tuple `_REQUIRED_BINARIES` of ocr.py. -/
def _REQUIRED_BINARIES : List String := ["pdftoppm", "tesseract"]

/-- Run-fatal outcomes of a batch invocation: the import-time
`MissingBinaryError` raised by ocr.py's required-binary loop, and the
`PipelineError` raised by `main`'s input pre-check (both end the process
with a non-zero exit). -/
inductive Fatal where
  | missingBinary (name : String)
  | inputNotFound (msg : String)
deriving DecidableEq

/-- Embedding of the module-level required-binary loop of ocr.py: the first
binary of `_REQUIRED_BINARIES` that `shutil.which` cannot find, if any. -/
def missingRequiredBinary (w : BatchWorld) : Option String :=
  _REQUIRED_BINARIES.find? (fun b => !(w.which b))

/-- One document's contribution to the batch output, as computed inside the
`as_completed` loop of `cli.py`: a `{file, ocr_text}` record on success, a
`{file, error}` record when the pipeline raised (`PipelineError` and plain
`Exception` handlers build the same shape). -/
def processDoc (w : BatchWorld) (p : String) : Record :=
  match ocr_pdf (w.doc p) with
  | .ok text => mkSuccess (pathName p) text
  | .error e => mkErrorRec (pathName p) (strPErr e)

/-- Embedding of the `as_completed` aggregation loop: futures finish in the
arbitrary order `order` and each completion stores its record in the
`completed` dict keyed by the originating path. -/
def gatherCompleted (w : BatchWorld) (order : List String) :
    List (String × Record) :=
  order.foldl (fun d p => alistInsert d p (processDoc w p)) []

/-- Embedding of `main` (cli.py) after argument parsing: validate that
every input path is a file (raising `PipelineError "File not found: …"`,
which the top-level handler turns into `sys.exit(1)`); then schedule every
document, gather completions in completion order `order`, and emit the
records re-read in submission order. -/
def cliMain (pdfs : List String) (order : List String) (w : BatchWorld) :
    Except Fatal (List Record) :=
  match pdfs.find? (fun p => !(w.isFile p)) with
  | some p => .error (.inputNotFound ("File not found: " ++ p))
  | none =>
      let completed := gatherCompleted w order
      .ok (pdfs.map (fun p => (alistLookup completed p).getD []))

/-- One whole batch invocation of the CLI process: importing ocr.py runs
the required-binary check (fatal `MissingBinaryError` before any work),
then `main` runs. -/
def runBatch (pdfs : List String) (order : List String) (w : BatchWorld) :
    Except Fatal (List Record) :=
  match missingRequiredBinary w with
  | some b => .error (.missingBinary b)
  | none => cliMain pdfs order w

/-- A process outcome that is not a `FileNotFoundError`. -/
def notFoundFree {β : Type} : ProcResult β → Prop
  | .notFound _ => False
  | .exited _ _ _ => True

/-- Static-environment well-formedness of a batch world: when
`shutil.which` finds an executable at import time, invoking it during the
run does not raise `FileNotFoundError` (the executable set does not change
while the process runs). -/
def Consistent (w : BatchWorld) : Prop :=
  ∀ p : String,
    (w.which "pdftoppm" = true →
        notFoundFree (w.doc p).rasterStream ∧
        notFoundFree (w.doc p).rasterFile) ∧
    (w.which "tesseract" = true →
        (∀ s, notFoundFree ((w.doc p).recognizeStream s)) ∧
        (∀ s, notFoundFree ((w.doc p).recognizeFile s)))

/-- Document world whose rasterizer writes one page image and whose
recognizer returns the text `HELLO`; used to evaluate concrete runs. -/
def W4doc : DocWorld :=
  ⟨false, .exited 0 "" "", .exited 0 "" "", ["page-1.ppm"],
    fun _ => .exited 0 "S" "", fun _ => .exited 0 "HELLO" ""⟩

/-- Batch world where all binaries and inputs exist and every document
behaves like `W4doc`. -/
def W4 : BatchWorld := ⟨fun _ => true, fun _ => true, fun _ => W4doc⟩

/-- Batch world for a concrete two-document run: every document has one
page whose recognized text is the document's own path string. -/
def WC1 : BatchWorld :=
  ⟨fun _ => true, fun _ => true,
    fun p =>
      ⟨false, .exited 0 "" "", .exited 0 "" "", ["page-1.ppm"],
        fun _ => .exited 0 "S" "", fun _ => .exited 0 p ""⟩⟩

/-- The records `WC1` produces for the submission `["dir/a.pdf", "b.pdf"]`. -/
def WC1res : List Record :=
  [mkSuccess "a.pdf" "<page number 1>\ndir/a.pdf\n</page number 1>",
   mkSuccess "b.pdf" "<page number 1>\nb.pdf\n</page number 1>"]

/-- Two-page document whose page texts are `A1` and `A2`. -/
def WC2good : DocWorld :=
  ⟨false, .exited 0 "" "", .exited 0 "" "",
    ["page-1.ppm", "page-2.ppm"],
    fun _ => .exited 0 "S" "",
    fun i => if i = "page-1.ppm" then .exited 0 "A1" "" else .exited 0 "A2" ""⟩

/-- Document whose recognizer exits with status 1. -/
def WC2bad : DocWorld :=
  ⟨false, .exited 0 "" "", .exited 0 "" "", ["page-1.ppm"],
    fun _ => .exited 0 "S" "", fun _ => .exited 1 "" "boom"⟩

/-- Batch world mirroring the specification's worked example: `a.pdf`
succeeds with two pages, `b.pdf`'s recognizer invocation fails. -/
def WC2 : BatchWorld :=
  ⟨fun _ => true, fun _ => true,
    fun p => if p = "b.pdf" then WC2bad else WC2good⟩

/-- Batch world whose search path is missing the recognizer binary. -/
def WC3 : BatchWorld :=
  ⟨fun b => !(b == "tesseract"), fun _ => true, fun _ => W4doc⟩

/-- Three-page document world: the rasterizer writes three page files
(glob order scrambled), recognized as `P1`, `P2`, `P3`. -/
def W5doc : DocWorld :=
  ⟨false, .exited 0 "" "", .exited 0 "" "",
    ["page-3.ppm", "page-1.ppm", "page-2.ppm"],
    fun _ => .exited 0 "S" "",
    fun i =>
      if i = "page-1.ppm" then .exited 0 "P1" ""
      else if i = "page-2.ppm" then .exited 0 "P2" ""
      else .exited 0 "P3" ""⟩

/-- Batch world in which no requested input path exists. -/
def W6 : BatchWorld := ⟨fun _ => true, fun _ => false, fun _ => W4doc⟩

/-- Document world whose rasterizer succeeds but writes no page files and
no stdout bytes. -/
def W7doc : DocWorld :=
  ⟨false, .exited 0 "" "", .exited 0 "" "", [],
    fun _ => .exited 0 "S" "", fun _ => .exited 0 "T" ""⟩

/-- Batch world around `W7doc`. -/
def W7 : BatchWorld := ⟨fun _ => true, fun _ => true, fun _ => W7doc⟩

/-- Document world whose rasterizer writes no page files but streams the
bytes `PPM` to stdout, which the recognizer turns into `TXT`. -/
def W8doc : DocWorld :=
  ⟨false, .exited 0 "" "", .exited 0 "PPM" "", [],
    fun s => if s = "PPM" then .exited 0 "TXT" "" else .exited 1 "" "",
    fun _ => .exited 0 "X" ""⟩

theorem alistLookup_insert {α : Type} (d : List (String × α)) (k k2 : String) (v : α) :
    alistLookup (alistInsert d k v) k2 =
      if k = k2 then some v else alistLookup d k2 := by
  induction d with
  | nil => simp [alistInsert, alistLookup]
  | cons hd tl ih =>
      obtain ⟨k1, v1⟩ := hd
      simp only [alistInsert]
      by_cases h1 : k1 = k
      · subst h1
        simp only [if_pos rfl, alistLookup]
        by_cases h2 : k1 = k2 <;> simp [h2]
      · simp only [if_neg h1, alistLookup, ih]
        by_cases h2 : k1 = k2
        · subst h2
          have hne : ¬ k = k1 := fun h => h1 h.symm
          simp [hne]
        · simp [h2]

theorem alistLookup_gatherAux (w : BatchWorld) (order : List String) (p : String) :
    ∀ d, alistLookup
        (order.foldl (fun d q => alistInsert d q (processDoc w q)) d) p =
      if p ∈ order then some (processDoc w p) else alistLookup d p := by
  induction order with
  | nil => intro d; simp
  | cons q rest ih =>
      intro d
      simp only [List.foldl_cons, ih]
      by_cases hq : p ∈ rest
      · simp [hq]
      · simp only [if_neg hq, alistLookup_insert]
        by_cases h2 : q = p
        · subst h2; simp
        · have hpq : ¬ p = q := fun h => h2 h.symm
          have hne : p ∉ q :: rest := by simp [List.mem_cons, hpq, hq]
          simp [h2, hne]

theorem gatherCompleted_lookup (w : BatchWorld) (order : List String)
    (p : String) (h : p ∈ order) :
    alistLookup (gatherCompleted w order) p = some (processDoc w p) := by
  unfold gatherCompleted
  rw [alistLookup_gatherAux]
  simp [h]

theorem cliMain_ok_eq (pdfs order : List String) (w : BatchWorld)
    (res : List Record) (hord : ∀ p ∈ pdfs, p ∈ order)
    (hok : cliMain pdfs order w = .ok res) :
    res = pdfs.map (processDoc w) := by
  unfold cliMain at hok
  cases hfind : pdfs.find? (fun p => !(w.isFile p)) with
  | some p => rw [hfind] at hok; cases hok
  | none =>
      rw [hfind] at hok
      simp only [Except.ok.injEq] at hok
      subst hok
      refine List.map_congr_left ?_
      intro p hp
      rw [gatherCompleted_lookup w order p (hord p hp)]
      rfl

theorem runBatch_ok_eq (pdfs order : List String) (w : BatchWorld)
    (res : List Record) (hord : ∀ p ∈ pdfs, p ∈ order)
    (hok : runBatch pdfs order w = .ok res) :
    res = pdfs.map (processDoc w) := by
  unfold runBatch at hok
  cases hfind : missingRequiredBinary w with
  | some b => rw [hfind] at hok; cases hok
  | none =>
      rw [hfind] at hok
      exact cliMain_ok_eq pdfs order w res hord hok

theorem runBatch_ok_of (pdfs order : List String) (w : BatchWorld)
    (hbins : ∀ b ∈ _REQUIRED_BINARIES, w.which b = true)
    (hfiles : ∀ p ∈ pdfs, w.isFile p = true)
    (hord : ∀ p ∈ pdfs, p ∈ order) :
    runBatch pdfs order w = .ok (pdfs.map (processDoc w)) := by
  have h1 : missingRequiredBinary w = none := by
    unfold missingRequiredBinary
    rw [List.find?_eq_none]
    intro b hb
    simp [hbins b hb]
  have h2 : pdfs.find? (fun p => !(w.isFile p)) = none := by
    rw [List.find?_eq_none]
    intro p hp
    simp [hfiles p hp]
  unfold runBatch cliMain
  rw [h1, h2]
  simp only [Except.ok.injEq]
  refine List.map_congr_left ?_
  intro p hp
  rw [gatherCompleted_lookup w order p (hord p hp)]
  rfl

theorem runBatch_ok_files (pdfs order : List String) (w : BatchWorld)
    (res : List Record) (hok : runBatch pdfs order w = .ok res) :
    ∀ p ∈ pdfs, w.isFile p = true := by
  unfold runBatch at hok
  cases hbin : missingRequiredBinary w with
  | some b => rw [hbin] at hok; cases hok
  | none =>
      rw [hbin] at hok
      unfold cliMain at hok
      cases hfind : pdfs.find? (fun p => !(w.isFile p)) with
      | some p => rw [hfind] at hok; cases hok
      | none =>
          rw [List.find?_eq_none] at hfind
          intro p hp
          have := hfind p hp
          simpa using this

theorem runBatch_ok_bins (pdfs order : List String) (w : BatchWorld)
    (res : List Record) (hok : runBatch pdfs order w = .ok res) :
    ∀ b ∈ _REQUIRED_BINARIES, w.which b = true := by
  unfold runBatch at hok
  cases hbin : missingRequiredBinary w with
  | some b => rw [hbin] at hok; cases hok
  | none =>
      rw [hbin] at hok
      unfold missingRequiredBinary at hbin
      rw [List.find?_eq_none] at hbin
      intro b hb
      have := hbin b hb
      simpa using this

theorem processDoc_file (w : BatchWorld) (p : String) :
    alistLookup (processDoc w p) "file" = some (pathName p) := by
  unfold processDoc
  cases ocr_pdf (w.doc p) with
  | ok t => simp [mkSuccess, alistLookup]
  | error e => simp [mkErrorRec, alistLookup]

theorem ocr_pdf_eq_fileBased (w : DocWorld) : ocr_pdf w = fileBasedPath w := rfl

theorem runCmd_ok_zero {β : Type} (so se : β) :
    runCmd defaultOkExitCodes (ProcResult.exited 0 so se) = .ok (so, se) := rfl

/-- Claim C10: as shipped, `_STREAMING_SUPPORTED` is the constant `False`
(not `None`), `ocr_pdf` only re-probes when the flag is `None`, so the
probe is never called, the streaming fast path is never entered, and every
document goes through the file-based temporary-directory strategy; in
addition any non-`None` flag value suppresses the probe, and a `None` flag
does trigger it. -/
theorem streaming_pinned_off (w : DocWorld) (b : Bool) :
    _STREAMING_SUPPORTED = some false ∧
    (ocr_pdf_full _STREAMING_SUPPORTED w).probeCalled = false ∧
    (ocr_pdf_full _STREAMING_SUPPORTED w).streamingTried = false ∧
    (ocr_pdf_full _STREAMING_SUPPORTED w).usedFileBased = true ∧
    (ocr_pdf_full _STREAMING_SUPPORTED w).result = fileBasedPath w ∧
    (ocr_pdf_full (some b) w).probeCalled = false ∧
    (ocr_pdf_full none w).probeCalled = true := by
  refine ⟨rfl, rfl, rfl, rfl, rfl, ?_, ?_⟩
  · cases b with
    | false => rfl
    | true =>
        unfold ocr_pdf_full
        cases hs : streamingPath w with
        | error e => simp [hs]
        | ok o => cases o <;> simp [hs]
  · unfold ocr_pdf_full
    cases hp : w.probe with
    | false => simp
    | true =>
        cases hs : streamingPath w with
        | error e => simp [hs]
        | ok o => cases o <;> simp [hs]

/-- Claim C9: the external process runner returns the captured stdout and
stderr streams exactly when the exit code is in the accepted set (whose
default is only zero); an unaccepted exit code fails with
`CalledProcessError` carrying the code and the captured stderr; a missing
executable fails with `MissingBinaryError` naming it. -/
theorem runCmd_contract (ok : List Int) (code : Int) (out err : List Nat)
    (name : String) :
    (code ∈ ok → runCmd ok (ProcResult.exited code out err) = .ok (out, err)) ∧
    (code ∉ ok →
        runCmd ok (ProcResult.exited code out err) =
          .error (.calledProcessError code out err)) ∧
    runCmd ok (ProcResult.notFound name) =
      (.error (.missingBinary name) :
        Except (RunErr (List Nat)) (List Nat × List Nat)) ∧
    defaultOkExitCodes = [0] := by
  refine ⟨?_, ?_, rfl, rfl⟩
  · intro h; simp [runCmd, h]
  · intro h; simp [runCmd, h]

/-- Claim C1: for any submission sequence and any completion order of the
per-document tasks, a successful batch returns exactly one record per
submitted document, in submission order, with the i-th record's `file`
field equal to the i-th submitted path's file name. -/
theorem batch_preserves_submission_order (pdfs order : List String)
    (w : BatchWorld) (res : List Record) (hperm : order.Perm pdfs)
    (hok : runBatch pdfs order w = .ok res) :
    res.length = pdfs.length ∧
    res.map (fun r => alistLookup r "file") =
      pdfs.map (fun p => some (pathName p)) := by
  have hord : ∀ p ∈ pdfs, p ∈ order := fun p hp => (hperm.mem_iff).2 hp
  have heq := runBatch_ok_eq pdfs order w res hord hok
  subst heq
  refine ⟨by simp, ?_⟩
  rw [List.map_map]
  refine List.map_congr_left ?_
  intro p hp
  simp [Function.comp, processDoc_file]

/-- Claim C6: the batch operation validates every requested input path
before any pipeline work: if some path is not a file the run aborts with a
fatal error and produces no per-document result, and conversely any
successful run implies every requested path existed. -/
theorem input_precheck_fatal (pdfs order : List String) (w : BatchWorld) :
    ((∃ p, p ∈ pdfs ∧ w.isFile p = false) →
        ∃ e, runBatch pdfs order w = .error e) ∧
    (∀ res, runBatch pdfs order w = .ok res → ∀ p ∈ pdfs, w.isFile p = true) := by
  constructor
  · rintro ⟨p, hp, hfile⟩
    cases hrb : runBatch pdfs order w with
    | error e => exact ⟨e, rfl⟩
    | ok res =>
        have := runBatch_ok_files pdfs order w res hrb p hp
        rw [hfile] at this
        cases this
  · intro res hok
    exact runBatch_ok_files pdfs order w res hok

/-- Claim C4 counterexample: in a successful batch the success record's
keys are `["file", "ocr_text"]`, so it has neither the `{file, text}` nor
the `{file, error}` shape stated by the claim. -/
theorem record_keys_counterexample :
    runBatch ["a.pdf"] ["a.pdf"] W4 =
      .ok [[("file", "a.pdf"),
            ("ocr_text", "<page number 1>\nHELLO\n</page number 1>")]] ∧
    recKeys [("file", "a.pdf"),
        ("ocr_text", "<page number 1>\nHELLO\n</page number 1>")] ≠
      ["file", "text"] ∧
    recKeys [("file", "a.pdf"),
        ("ocr_text", "<page number 1>\nHELLO\n</page number 1>")] ≠
      ["file", "error"] :=
  ⟨by decide, by decide, by decide⟩

/-- Claim C4 (amended): every record in the batch output has exactly one
of two shapes: a success record with keys `file` and `ocr_text`, or an
error record with keys `file` and `error`. -/
theorem record_shapes (pdfs order : List String) (w : BatchWorld)
    (res : List Record) (r : Record) (hperm : order.Perm pdfs)
    (hok : runBatch pdfs order w = .ok res) (hr : r ∈ res) :
    recKeys r = ["file", "ocr_text"] ∨ recKeys r = ["file", "error"] := by
  have hord : ∀ p ∈ pdfs, p ∈ order := fun p hp => (hperm.mem_iff).2 hp
  have heq := runBatch_ok_eq pdfs order w res hord hok
  subst heq
  obtain ⟨p, hp, hpr⟩ := List.mem_map.1 hr
  subst hpr
  unfold processDoc
  cases hocr : ocr_pdf (w.doc p) with
  | ok t => left; simp [hocr, mkSuccess, recKeys]
  | error e => right; simp [hocr, mkErrorRec, recKeys]

/-- Claim C5: a document whose rasterizer produces exactly three page
image files yields the three recognized page texts wrapped in page markers
numbered 1, 2, 3 in ascending order, joined by newlines. -/
theorem three_page_document (w : DocWorld)
    (so se i1 i2 i3 t1 e1 t2 e2 t3 e3 : String)
    (hr : w.rasterFile = .exited 0 so se)
    (himg : sortImages w.globResult = [i1, i2, i3])
    (h1 : w.recognizeFile i1 = .exited 0 t1 e1)
    (h2 : w.recognizeFile i2 = .exited 0 t2 e2)
    (h3 : w.recognizeFile i3 = .exited 0 t3 e3) :
    ocr_pdf w =
      .ok (String.intercalate "\n"
        [pageTag 1 t1, pageTag 2 t2, pageTag 3 t3]) := by
  rw [ocr_pdf_eq_fileBased]
  simp [fileBasedPath, hr, runCmd_ok_zero, himg, ocrPages, h1, h2, h3,
    formatPages, numberPages]

/-- Claim C7: if the rasterizer succeeds but produces neither image files
nor stdout bytes, `ocr_pdf` fails the document with the no-output
`OcrError`, and the batch converts it into that document's error record
(per-document, not run-fatal). -/
theorem no_output_error (w : DocWorld) (wb : BatchWorld) (p se : String)
    (hr : w.rasterFile = .exited 0 "" se)
    (hg : sortImages w.globResult = [])
    (hdoc : wb.doc p = w) :
    ocr_pdf w = .error (.ocrError "No images produced by pdftoppm") ∧
    processDoc wb p =
      mkErrorRec (pathName p) "No images produced by pdftoppm" := by
  have h1 : ocr_pdf w = .error (.ocrError "No images produced by pdftoppm") := by
    rw [ocr_pdf_eq_fileBased]
    simp [fileBasedPath, hr, runCmd_ok_zero, hg]
  refine ⟨h1, ?_⟩
  unfold processDoc
  rw [hdoc, h1]
  rfl

/-- Claim C8: if the rasterizer produces no image files but nonempty
stdout bytes, `ocr_pdf` treats those bytes as a single streamed page, runs
the recognizer once on them, and returns the recognized text wrapped as
page 1. -/
theorem streamed_single_page (w : DocWorld) (so se t e2 : String)
    (hr : w.rasterFile = .exited 0 so se) (hso : ¬ so = "")
    (hg : sortImages w.globResult = [])
    (hrec : w.recognizeStream so = .exited 0 t e2) :
    ocr_pdf w = .ok (pageTag 1 t) := by
  rw [ocr_pdf_eq_fileBased]
  simp [fileBasedPath, hr, runCmd_ok_zero, hg, hrec, hso]

theorem ocrPages_error_of_failure (w : DocWorld) (img : String) (code : Int)
    (out err : String) (hrec : w.recognizeFile img = .exited code out err)
    (hcode : ¬ code = 0) :
    ∀ imgs, img ∈ imgs → ∃ e, ocrPages w imgs = .error e := by
  intro imgs
  induction imgs with
  | nil => intro h; cases h
  | cons x rest ih =>
      intro hmem
      rw [List.mem_cons] at hmem
      cases hrc : runCmd defaultOkExitCodes (w.recognizeFile x) with
      | error e2 =>
          cases e2 with
          | missingBinary n =>
              exact ⟨.missingBinary n, by simp [ocrPages, hrc]⟩
          | calledProcessError c o e3 =>
              exact ⟨.ocrError "tesseract failed on image", by simp [ocrPages, hrc]⟩
      | ok pr =>
          obtain ⟨o2, e2⟩ := pr
          have hx : ¬ x = img := by
            intro hxi
            subst hxi
            rw [hrec] at hrc
            have hnm : ¬ code ∈ defaultOkExitCodes := by
              simp [defaultOkExitCodes, hcode]
            simp [runCmd, hnm] at hrc
          have himg2 : img ∈ rest :=
            hmem.resolve_left (fun h => hx h.symm)
          obtain ⟨e3, he3⟩ := ih himg2
          exact ⟨e3, by simp [ocrPages, hrc, he3]⟩

theorem runCmd_no_missing {β : Type} (ok : List Int) (res : ProcResult β)
    (h : notFoundFree res) (n : String) :
    runCmd ok res ≠ .error (.missingBinary n) := by
  cases res with
  | notFound f => cases h
  | exited c o e => by_cases hc : c ∈ ok <;> simp [runCmd, hc]

theorem ocrPages_no_missing (w : DocWorld)
    (hrec : ∀ s, notFoundFree (w.recognizeFile s)) (n : String) :
    ∀ imgs, ocrPages w imgs ≠ .error (.missingBinary n) := by
  intro imgs
  induction imgs with
  | nil => intro h; cases h
  | cons x rest ih =>
      cases hrc : runCmd defaultOkExitCodes (w.recognizeFile x) with
      | error e2 =>
          cases e2 with
          | missingBinary m => exact absurd hrc (runCmd_no_missing _ _ (hrec x) m)
          | calledProcessError c o e3 =>
              simp [ocrPages, hrc]
      | ok pr =>
          obtain ⟨o2, e2⟩ := pr
          cases hop : ocrPages w rest with
          | error e3 =>
              have he3 : ¬ e3 = PErr.missingBinary n := by
                intro h
                rw [h] at hop
                exact ih hop
              simp [ocrPages, hrc, hop, he3]
          | ok parts => simp [ocrPages, hrc, hop]

theorem fileBasedPath_no_missing (w : DocWorld)
    (h1 : notFoundFree w.rasterFile)
    (h2 : ∀ s, notFoundFree (w.recognizeStream s))
    (h3 : ∀ s, notFoundFree (w.recognizeFile s))
    (n : String) :
    fileBasedPath w ≠ .error (.missingBinary n) := by
  unfold fileBasedPath
  cases hr : runCmd defaultOkExitCodes w.rasterFile with
  | error e =>
      cases e with
      | missingBinary m => exact absurd hr (runCmd_no_missing _ _ h1 m)
      | calledProcessError c o e2 =>
          intro hc
          exact PErr.noConfusion (Except.error.inj hc)
  | ok pr =>
      obtain ⟨ro, re⟩ := pr
      simp only []
      split
      · cases hrs : runCmd defaultOkExitCodes (w.recognizeStream ro) with
        | error e =>
            cases e with
            | missingBinary m => exact absurd hrs (runCmd_no_missing _ _ (h2 ro) m)
            | calledProcessError c o e2 =>
                intro hc
                exact PErr.noConfusion (Except.error.inj hc)
        | ok pr2 =>
            obtain ⟨o2, e2⟩ := pr2
            intro hc
            exact Except.noConfusion hc
      · split
        · intro hc
          exact PErr.noConfusion (Except.error.inj hc)
        · cases hop : ocrPages w (sortImages w.globResult) with
          | error e3 =>
              have he3 := ocrPages_no_missing w h3 n (sortImages w.globResult)
              rw [hop] at he3
              intro hc
              have : e3 = PErr.missingBinary n := Except.error.inj hc
              rw [this] at he3
              exact he3 rfl
          | ok parts =>
              intro hc
              exact Except.noConfusion hc

/-- Claim C2: a single page's recognizer failure (unaccepted exit code)
aborts the whole document's extraction — `ocr_pdf` returns an error and no
partial-page text — and the batch converts that failure into the
document's `{file, error}` record while still returning every sibling
document's independently computed record. -/
theorem page_failure_isolated (pdfs order : List String) (w : BatchWorld)
    (p img : String) (code : Int) (out err : String)
    (hperm : order.Perm pdfs) (hp : p ∈ pdfs)
    (hbins : ∀ b ∈ _REQUIRED_BINARIES, w.which b = true)
    (hfiles : ∀ q ∈ pdfs, w.isFile q = true)
    (himg : img ∈ sortImages (w.doc p).globResult)
    (hrec : (w.doc p).recognizeFile img = .exited code out err)
    (hcode : ¬ code = 0) :
    (∃ e, ocr_pdf (w.doc p) = .error e) ∧
    runBatch pdfs order w = .ok (pdfs.map (processDoc w)) ∧
    (∃ msg, processDoc w p = mkErrorRec (pathName p) msg) := by
  have hdocerr : ∃ e, ocr_pdf (w.doc p) = .error e := by
    rw [ocr_pdf_eq_fileBased]
    unfold fileBasedPath
    cases hr : runCmd defaultOkExitCodes (w.doc p).rasterFile with
    | error e =>
        cases e with
        | missingBinary n => exact ⟨_, rfl⟩
        | calledProcessError c2 o2 e2 => exact ⟨_, rfl⟩
    | ok pr =>
        obtain ⟨ro, re⟩ := pr
        obtain ⟨e3, he3⟩ :=
          ocrPages_error_of_failure (w.doc p) img code out err hrec hcode
            (sortImages (w.doc p).globResult) himg
        cases hsi : sortImages (w.doc p).globResult with
        | nil => rw [hsi] at himg; cases himg
        | cons a rest =>
            rw [hsi] at he3
            refine ⟨e3, ?_⟩
            simp [hsi, he3]
  refine ⟨hdocerr, ?_, ?_⟩
  · exact runBatch_ok_of pdfs order w hbins hfiles
      (fun q hq => (hperm.mem_iff).2 hq)
  · obtain ⟨e, he⟩ := hdocerr
    exact ⟨strPErr e, by simp [processDoc, he]⟩

/-- Claim C3: a required executable absent from the environment makes the
batch call fail fatally (with `MissingBinaryError`) before any
per-document result exists; and in any batch that did produce results
(with a static executable environment) no document's pipeline outcome is a
missing-executable failure, so no `{file, error}` record encodes one. -/
theorem missing_binary_fatal (pdfs order : List String) (w : BatchWorld) :
    ((∃ b, b ∈ _REQUIRED_BINARIES ∧ w.which b = false) →
        ∃ name, runBatch pdfs order w = .error (.missingBinary name)) ∧
    (Consistent w →
        ∀ res, runBatch pdfs order w = .ok res →
          ∀ p ∈ pdfs, ∀ name,
            ocr_pdf (w.doc p) ≠ .error (.missingBinary name)) := by
  constructor
  · rintro ⟨b, hb, hmiss⟩
    cases hfind : missingRequiredBinary w with
    | some b2 => exact ⟨b2, by unfold runBatch; rw [hfind]⟩
    | none =>
        unfold missingRequiredBinary at hfind
        rw [List.find?_eq_none] at hfind
        have := hfind b hb
        rw [hmiss] at this
        simp at this
  · intro hcons res hok p _hp name
    have hbins := runBatch_ok_bins pdfs order w res hok
    have hpdf := hbins "pdftoppm" (by simp [_REQUIRED_BINARIES])
    have htess := hbins "tesseract" (by simp [_REQUIRED_BINARIES])
    obtain ⟨hc1, hc2⟩ := hcons p
    obtain ⟨hrs, hrf⟩ := hc1 hpdf
    obtain ⟨hts, htf⟩ := hc2 htess
    rw [ocr_pdf_eq_fileBased]
    exact fileBasedPath_no_missing (w.doc p) hrf hts htf name

/-- Witness for claim C1: a concrete two-document batch whose tasks
complete in reversed order still emits the records in submission order. -/
theorem batch_preserves_submission_order_witness :
    WC1res.length = (["dir/a.pdf", "b.pdf"] : List String).length ∧
    WC1res.map (fun r => alistLookup r "file") =
      (["dir/a.pdf", "b.pdf"] : List String).map (fun p => some (pathName p)) :=
  batch_preserves_submission_order ["dir/a.pdf", "b.pdf"]
    ["b.pdf", "dir/a.pdf"] WC1 WC1res (List.Perm.swap _ _ _) (by decide)

/-- Witness for claim C2: in the specification's worked example, `b.pdf`'s
page-recognition failure aborts only that document. -/
theorem page_failure_isolated_witness :
    (∃ e, ocr_pdf (WC2.doc "b.pdf") = .error e) ∧
    runBatch ["a.pdf", "b.pdf"] ["b.pdf", "a.pdf"] WC2 =
      .ok ((["a.pdf", "b.pdf"] : List String).map (processDoc WC2)) ∧
    (∃ msg, processDoc WC2 "b.pdf" = mkErrorRec (pathName "b.pdf") msg) :=
  page_failure_isolated ["a.pdf", "b.pdf"] ["b.pdf", "a.pdf"] WC2 "b.pdf"
    "page-1.ppm" 1 "" "boom" (List.Perm.swap _ _ _) (by decide) (by decide)
    (by decide) (by decide) (by decide) (by decide)

/-- Witness for claim C3: with the recognizer binary absent, the batch
call fails fatally with the missing-binary error. -/
theorem missing_binary_fatal_witness :
    ∃ name, runBatch ["a.pdf"] ["a.pdf"] WC3 =
      .error (.missingBinary name) :=
  (missing_binary_fatal ["a.pdf"] ["a.pdf"] WC3).1 ⟨"tesseract", by decide, by decide⟩

/-- Witness for claim C4 (amended): the success record of a concrete
one-document batch has the `{file, ocr_text}` shape. -/
theorem record_shapes_witness :
    recKeys [("file", "a.pdf"),
        ("ocr_text", "<page number 1>\nHELLO\n</page number 1>")] =
      ["file", "ocr_text"] ∨
    recKeys [("file", "a.pdf"),
        ("ocr_text", "<page number 1>\nHELLO\n</page number 1>")] =
      ["file", "error"] :=
  record_shapes ["a.pdf"] ["a.pdf"] W4
    [[("file", "a.pdf"),
      ("ocr_text", "<page number 1>\nHELLO\n</page number 1>")]]
    [("file", "a.pdf"),
      ("ocr_text", "<page number 1>\nHELLO\n</page number 1>")]
    (List.Perm.refl _) (by decide) (by decide)

/-- Witness for claim C5: a concrete three-page document yields the three
tagged page texts joined by newlines. -/
theorem three_page_document_witness :
    ocr_pdf W5doc =
      .ok (String.intercalate "\n"
        [pageTag 1 "P1", pageTag 2 "P2", pageTag 3 "P3"]) :=
  three_page_document W5doc "" "" "page-1.ppm" "page-2.ppm" "page-3.ppm"
    "P1" "" "P2" "" "P3" "" (by decide) (by decide) (by decide) (by decide)
    (by decide)

/-- Witness for claim C6: a missing input path aborts the concrete batch
with a fatal error. -/
theorem input_precheck_fatal_witness :
    ∃ e, runBatch ["missing.pdf"] ["missing.pdf"] W6 = .error e :=
  (input_precheck_fatal ["missing.pdf"] ["missing.pdf"] W6).1
    ⟨"missing.pdf", by decide, by decide⟩

/-- Witness for claim C7: a rasterizer run with no page files and no
stdout fails the concrete document with the no-output error record. -/
theorem no_output_error_witness :
    ocr_pdf W7doc = .error (.ocrError "No images produced by pdftoppm") ∧
    processDoc W7 "a.pdf" =
      mkErrorRec (pathName "a.pdf") "No images produced by pdftoppm" :=
  no_output_error W7doc W7 "a.pdf" "" (by decide) (by decide) rfl

/-- Witness for claim C8: a concrete document with streamed-only
rasterizer output yields its recognized text wrapped as page 1. -/
theorem streamed_single_page_witness :
    ocr_pdf W8doc = .ok (pageTag 1 "TXT") :=
  streamed_single_page W8doc "PPM" "" "TXT" "" (by decide) (by decide)
    (by decide) (by decide)

/-- Witness for claim C9: the runner contract evaluated at exit code 0
(accepted) and exit code 2 (rejected). -/
theorem runCmd_contract_witness :
    runCmd [0] (ProcResult.exited 0 [104] [2]) =
      (.ok ([104], [2]) : Except (RunErr (List Nat)) (List Nat × List Nat)) ∧
    runCmd [0] (ProcResult.exited 2 [] [7]) =
      (.error (.calledProcessError 2 [] [7]) :
        Except (RunErr (List Nat)) (List Nat × List Nat)) :=
  ⟨(runCmd_contract [0] 0 [104] [2] "x").1 (by decide),
   (runCmd_contract [0] 2 [] [7] "x").2.1 (by decide)⟩

